import Mathlib

/-!
Verification development for the session-token codec and credentials-callback
cookie rewrite of the `nuxt-authjs` module.

The embedded functions are translated from `src/runtime/server/config.ts`
(`encode`, `decode`, `getDerivedEncryptionKey`, `resolveAuthConfig`) and
`src/runtime/server/handler.ts` (`handleCredentialsCallback`,
`isCredentialsCallback`).  The external cryptographic libraries the code
delegates to (`@panva/hkdf`, jose's `EncryptJWT` / `jwtDecrypt` /
`calculateJwkThumbprint`) are modelled as idealized deterministic primitives:
the KDF and the thumbprint are injective in their inputs, and the content
encryption is an ideal authenticated encryption whose ciphertext is an
invertible serialization of the payload and whose tag authenticates the exact
ciphertext under the exact key.
-/

namespace NuxtAuthJS

/-- Error taxonomy: `invalidInput` (empty KDF inputs), `unsupportedEnc`
(`config.ts:306`), `noMatchingDecryptionSecret` (`config.ts:285`), and
`tokenValidation` (jose decryption/claim-validation failures). -/
inductive CodecError where
  | invalidInput
  | unsupportedEnc
  | noMatchingDecryptionSecret
  | tokenValidation
  deriving DecidableEq, Repr

/-- A key produced by HKDF, identified by the inputs that derived it
(the idealized KDF is injective). -/
structure DerivedKey where
  digest : String
  ikm : String
  salt : String
  info : String
  length : Nat
  deriving DecidableEq, Repr

/-- Modelled from the spec: the external `@panva/hkdf` library (not part of
this repository's sources).  Deterministic; idealized as injective in its
inputs; fails with `invalidInput` when the secret (ikm) or the salt is
empty, per the spec's key-derivation contract. -/
def hkdf (digest ikm salt info : String) (length : Nat) : Except CodecError DerivedKey :=
  if ikm = "" ∨ salt = "" then .error .invalidInput
  else .ok ⟨digest, ikm, salt, info, length⟩

/-- The key length selected by the `switch` at `config.ts:297-307`. -/
def encKeyLength (enc : String) : Except CodecError Nat :=
  match enc with
  | "A256CBC-HS512" => .ok 64
  | "A256GCM" => .ok 32
  | _ => .error .unsupportedEnc

/-- `getDerivedEncryptionKey` at `config.ts:296-316`. -/
def getDerivedEncryptionKey (enc keyMaterial salt : String) : Except CodecError DerivedKey :=
  (encKeyLength enc).bind fun length =>
    hkdf "sha256" keyMaterial salt (s!"Auth Encryption Key ({salt})") length

/-- A JWK thumbprint, identified by the JWK it hashes (the idealized hash is
injective). -/
structure JwkThumbprint where
  kty : String
  k : DerivedKey
  digest : String
  deriving DecidableEq, Repr

/-- Models jose `calculateJwkThumbprint` on an `oct` JWK holding the raw key:
deterministic, idealized as injective. -/
def calculateJwkThumbprint (key : DerivedKey) (digest : String) : JwkThumbprint :=
  ⟨"oct", key, digest⟩

/-- The thumbprint computation at `config.ts:249-252` and `config.ts:278-281`:
the digest name is derived from the key's bit length (`byteLength << 3`). -/
def keyThumbprint (key : DerivedKey) : JwkThumbprint :=
  let bits := key.length <<< 3
  calculateJwkThumbprint key s!"sha{bits}"

/-- JSON claim values (the subset the session payload uses). -/
inductive JsonVal where
  | str (s : String)
  | num (n : Int)
  | bool (b : Bool)
  | null
  deriving DecidableEq, Repr

/-- A JSON claims object, as an insertion-ordered key/value list. -/
abbrev Claims := List (String × JsonVal)

/-- JS object property read. -/
def lookupClaim (c : Claims) (k : String) : Option JsonVal :=
  match c with
  | [] => none
  | (k0, v) :: rest => if k0 = k then some v else lookupClaim rest k

/-- JS object property write: any existing entry for the key is replaced. -/
def setClaim (k : String) (v : JsonVal) (c : Claims) : Claims :=
  c.filter (fun kv => kv.1 != k) ++ [(k, v)]

/-- Drop the timing/nonce claims that `encode` stamps onto the payload. -/
def eraseTimingClaims (c : Claims) : Claims :=
  c.filter (fun kv => kv.1 != "iat" && kv.1 != "exp" && kv.1 != "jti")

/-! ### Bit-level payload serialization

An invertible encoding of the claims payload into a bit string, standing for
the plaintext/ciphertext bytes of the content-encryption step. -/

/-- Self-delimiting unary encoding of a natural number. -/
def encNat (n : Nat) : List Bool := List.replicate n true ++ [false]

def decNat : List Bool → Option (Nat × List Bool)
  | [] => none
  | false :: rest => some (0, rest)
  | true :: rest =>
      match decNat rest with
      | some (n, r) => some (n + 1, r)
      | none => none

def encInt (i : Int) : List Bool := decide (i < 0) :: encNat i.natAbs

def decInt (l : List Bool) : Option (Int × List Bool) :=
  match l with
  | [] => none
  | sign :: rest =>
      match decNat rest with
      | some (n, r) => some (if sign then -(n : Int) else (n : Int), r)
      | none => none

def encChar (c : Char) : List Bool := encNat c.toNat

def encStr (s : String) : List Bool :=
  encNat s.data.length ++ (s.data.map encChar).flatten

def decChars : Nat → List Bool → Option (List Char × List Bool)
  | 0, l => some ([], l)
  | n + 1, l =>
      match decNat l with
      | some (c, r) =>
          match decChars n r with
          | some (cs, r2) => some (Char.ofNat c :: cs, r2)
          | none => none
      | none => none

def decStr (l : List Bool) : Option (String × List Bool) :=
  match decNat l with
  | some (n, r) =>
      match decChars n r with
      | some (cs, r2) => some (String.mk cs, r2)
      | none => none
  | none => none

def encVal : JsonVal → List Bool
  | .str s => false :: false :: encStr s
  | .num i => false :: true :: encInt i
  | .bool b => true :: false :: [b]
  | .null => true :: true :: []

def decVal (l : List Bool) : Option (JsonVal × List Bool) :=
  match l with
  | false :: false :: r => (decStr r).map (fun p => (.str p.1, p.2))
  | false :: true :: r => (decInt r).map (fun p => (.num p.1, p.2))
  | true :: false :: b :: r => some (.bool b, r)
  | true :: true :: r => some (.null, r)
  | _ => none

def encPair (kv : String × JsonVal) : List Bool := encStr kv.1 ++ encVal kv.2

def decPairs : Nat → List Bool → Option (Claims × List Bool)
  | 0, l => some ([], l)
  | n + 1, l =>
      match decStr l with
      | some (k, r) =>
          match decVal r with
          | some (v, r2) =>
              match decPairs n r2 with
              | some (c, r3) => some ((k, v) :: c, r3)
              | none => none
          | none => none
      | none => none

def encClaims (c : Claims) : List Bool := encNat c.length ++ (c.map encPair).flatten

def decClaims (l : List Bool) : Option Claims :=
  match decNat l with
  | some (n, r) =>
      match decPairs n r with
      | some (c, []) => some c
      | _ => none
  | none => none

/-! ### The JWE token model -/

structure JweHeader where
  alg : String
  enc : String
  kid : Option JwkThumbprint
  deriving DecidableEq, Repr

/-- The authentication tag of an ideal AEAD: it certifies exactly which
ciphertext was produced under exactly which key. -/
structure AuthTag where
  key : DerivedKey
  data : List Bool
  deriving DecidableEq, Repr

structure JweToken where
  header : JweHeader
  ciphertext : List Bool
  tag : AuthTag
  deriving DecidableEq, Repr

/-- Models jose content encryption (`EncryptJWT.encrypt`): ciphertext is the
serialized payload, the tag authenticates it under the key. -/
def jweEncrypt (header : JweHeader) (payload : Claims) (key : DerivedKey) : JweToken :=
  { header := header, ciphertext := encClaims payload, tag := ⟨key, encClaims payload⟩ }

/-- Models jose authenticated decryption: fails with a validation error
unless the tag was produced over exactly this ciphertext with exactly this
key. -/
def jweDecrypt (key : DerivedKey) (t : JweToken) : Except CodecError Claims :=
  if t.tag = ⟨key, t.ciphertext⟩ then
    match decClaims t.ciphertext with
    | some payload => .ok payload
    | none => .error .tokenValidation
  else .error .tokenValidation

/-- Models jose JWT claim validation: the `exp` claim, when present, must be
a number and satisfy `now - clockTolerance < exp`. -/
def validateExp (payload : Claims) (now clockTolerance : Int) : Except CodecError Claims :=
  match lookupClaim payload "exp" with
  | none => .ok payload
  | some (.num e) => if e ≤ now - clockTolerance then .error .tokenValidation else .ok payload
  | some _ => .error .tokenValidation

/-- Models jose `jwtDecrypt` with the `keyManagementAlgorithms`,
`contentEncryptionAlgorithms` and `clockTolerance` options used at
`config.ts:287-291`: restrict the header algorithms, resolve the key through
the caller's callback (errors propagate), decrypt, validate claims. -/
def jwtDecrypt (t : JweToken)
    (getKey : JweHeader → Except CodecError DerivedKey)
    (now : Int) (clockTolerance : Int)
    (keyManagementAlgorithms contentEncryptionAlgorithms : List String) :
    Except CodecError Claims :=
  if t.header.alg ∈ keyManagementAlgorithms then
    if t.header.enc ∈ contentEncryptionAlgorithms then
      (getKey t.header).bind fun key =>
        (jweDecrypt key t).bind fun payload =>
          validateExp payload now clockTolerance
    else .error .tokenValidation
  else .error .tokenValidation

/-! ### The repository's `encode` / `decode` (`config.ts:244-294`) -/

/-- The `secret` parameter: a single string or a list
(`Array.isArray(secret) ? secret : [secret]`, `config.ts:246/265`). -/
inductive SecretInput where
  | single (s : String)
  | list (l : List String)
  deriving DecidableEq, Repr

def SecretInput.toList : SecretInput → List String
  | .single s => [s]
  | .list l => l

/-- `DEFAULT_MAX_AGE` at `config.ts:235`. -/
def DEFAULT_MAX_AGE : Int := 30 * 24 * 60 * 60

/-- `const alg = 'dir'` at `config.ts:239`. -/
def jweAlg : String := "dir"

/-- `const enc = 'A256CBC-HS512'` at `config.ts:240`. -/
def jweEnc : String := "A256CBC-HS512"

/-- `encode` at `config.ts:244-260`.  The ambient clock (`now()`) and the
random jti (`crypto.randomUUID()`) are explicit parameters; `secrets[0]` on
an empty list is the JS `undefined`, modelled as the empty string, which the
KDF rejects as the library rejects a missing key. -/
def encode (token : Claims) (secret : SecretInput) (maxAge : Int) (salt : String)
    (now : Int) (jti : String) : Except CodecError JweToken :=
  let secrets := secret.toList
  (getDerivedEncryptionKey jweEnc (secrets.headD "") salt).bind fun encryptionSecret =>
    let thumbprint := keyThumbprint encryptionSecret
    let payload :=
      setClaim "jti" (.str jti)
        (setClaim "exp" (.num (now + maxAge))
          (setClaim "iat" (.num now) token))
    .ok (jweEncrypt ⟨jweAlg, jweEnc, some thumbprint⟩ payload encryptionSecret)

/-- The key-selection callback at `config.ts:269-286`: iterate the candidate
secrets in list order; accept the first derived key unconditionally when the
header carries no `kid`, otherwise accept a derived key exactly when its
thumbprint equals the `kid`; throw when no secret matches. -/
def decodeKeySelector (secrets : List String) (salt : String) (kid : Option JwkThumbprint)
    (enc : String) : Except CodecError DerivedKey :=
  match secrets with
  | [] => .error .noMatchingDecryptionSecret
  | s :: rest =>
      (getDerivedEncryptionKey enc s salt).bind fun encryptionSecret =>
        match kid with
        | none => .ok encryptionSecret
        | some k =>
            if k = keyThumbprint encryptionSecret then .ok encryptionSecret
            else decodeKeySelector rest salt (some k) enc

/-- The `token` parameter of `decode`: absent (`undefined`), the empty
string, or an actual token — `if (!token) return null` treats the first two
alike. -/
inductive TokenParam where
  | absent
  | empty
  | tok (t : JweToken)
  deriving DecidableEq, Repr

/-- `decode` at `config.ts:263-294`; `now` is the clock read during claim
validation. -/
def decode (token : TokenParam) (secret : SecretInput) (salt : String) (now : Int) :
    Except CodecError (Option Claims) :=
  let secrets := secret.toList
  match token with
  | .absent => .ok none
  | .empty => .ok none
  | .tok t =>
      (jwtDecrypt t (fun h => decodeKeySelector secrets salt h.kid h.enc) now 15
        [jweAlg] [jweEnc, "A256GCM"]).map some

/-! ### Tampering with a token -/

/-- Flip the bit at index `i` of a bit string. -/
def flipBit (i : Nat) (l : List Bool) : List Bool := l.set i (!(l.getD i false))

/-- A token whose ciphertext has the bit at index `i` flipped. -/
def tamperCiphertext (t : JweToken) (i : Nat) : JweToken :=
  { t with ciphertext := flipBit i t.ciphertext }

/-! ### The credentials-callback cookie rewrite (`handler.ts`) -/

/-- The `user` object seen by the `jwt` callback. -/
structure User where
  id : Option String
  deriving DecidableEq, Repr

/-- An adapter session record (`createSession` argument and result);
`expires` is a millisecond epoch timestamp. -/
structure SessionRecord where
  userId : String
  sessionToken : String
  expires : Int
  deriving DecidableEq, Repr

/-- Cookie serialization options, modelled as already-rendered attribute
text plus the `expires` attribute the handler sets. -/
structure CookieSerializeOptions where
  attrs : String
  expires : Option Int
  deriving DecidableEq, Repr

/-- The `Cookie` record of `handler.ts:9-13`. -/
structure Cookie where
  name : String
  value : String
  options : CookieSerializeOptions
  deriving DecidableEq, Repr

/-- Models cookie-es `serialize`: `name=value` followed by the rendered
attributes. -/
def serialize (name value : String) (options : CookieSerializeOptions) : String :=
  name ++ "=" ++ value ++ options.attrs ++
    (match options.expires with
     | some e => s!"; Expires={e}"
     | none => "")

/-- Models JS `String.prototype.startsWith`. -/
def jsStartsWith (s p : String) : Bool := p.data.isPrefixOf s.data

/-- The slice of `ResolvedAuthConfig` the credentials handler reads:
`cookies.sessionToken`, `session.maxAge`, and the value produced by
`session.generateSessionToken()`. -/
structure HandlerConfig where
  sessionCookieName : String
  sessionCookieOptions : CookieSerializeOptions
  sessionMaxAge : Int
  generateSessionToken : String
  deriving DecidableEq, Repr

/-- A web `Response`: its `Set-Cookie` headers, and everything else
(status, body, other headers) opaque. -/
structure WebResponse where
  setCookies : List String
  rest : String
  deriving DecidableEq, Repr

/-- The patched `jwt` callback at `handler.ts:69-90`: when the verified user
has an id, create a session record through the adapter and record the
replacement cookie; otherwise record nothing.  Returns the recorded cookie
and the list of adapter `createSession` calls made.  `config.session?.maxAge
|| 2592000` reads the configured max age with the JS-falsy zero replaced by
the default. -/
def patchedJwtCallback (config : HandlerConfig)
    (createSession : SessionRecord → SessionRecord)
    (user : Option User) (nowMs : Int) : Option Cookie × List SessionRecord :=
  match user.bind (·.id) with
  | none => (none, [])
  | some userId =>
      let maxAge := if config.sessionMaxAge = 0 then 2592000 else config.sessionMaxAge
      let session := createSession
        { userId := userId
        , sessionToken := config.generateSessionToken
        , expires := nowMs + maxAge * 1000 }
      (some { name := config.sessionCookieName
            , value := session.sessionToken
            , options := { config.sessionCookieOptions with expires := some session.expires } }
      , [session])

/-- The cookie rewrite at `handler.ts:100-114`: keep every `Set-Cookie`
header that does not start with `name=`, in order, then append the
serialized replacement session cookie. -/
def rewriteSetCookie (response : WebResponse) (sessionCookie : Cookie) : WebResponse :=
  let cookies := response.setCookies.filter
    (fun cookie => !(jsStartsWith cookie (sessionCookie.name ++ "=")))
  { response with
      setCookies :=
        cookies ++ [serialize sessionCookie.name sessionCookie.value sessionCookie.options] }

/-- `handleCredentialsCallback` at `handler.ts:60-117`.  The external
`Auth(request, config)` call is modelled by its observable effects: the raw
response it produces and the `user` value it hands to the patched `jwt`
callback during credential verification.  Returns the final response
together with the adapter `createSession` calls performed. -/
def handleCredentialsCallback (config : HandlerConfig)
    (createSession : SessionRecord → SessionRecord)
    (authUser : Option User) (rawResponse : WebResponse) (nowMs : Int) :
    WebResponse × List SessionRecord :=
  match patchedJwtCallback config createSession authUser nowMs with
  | (none, calls) => (rawResponse, calls)
  | (some sessionCookie, calls) => (rewriteSetCookie rawResponse sessionCookie, calls)

/-! ### Resolved session configuration and handler dispatch -/

/-- User-supplied `session` options; a `none` field is an absent key. -/
structure SessionUserOptions where
  strategy : Option String
  maxAge : Option Int
  updateAge : Option Int
  deriving DecidableEq, Repr

/-- The slice of `AuthUserConfig` that determines the resolved session
options: whether an `adapter` is configured, and the user's `session`
object. -/
structure AuthUserConfig where
  adapter : Bool
  session : Option SessionUserOptions
  deriving DecidableEq, Repr

structure ResolvedSessionConfig where
  strategy : String
  maxAge : Int
  updateAge : Int
  deriving DecidableEq, Repr

/-- The `session` field built by `resolveAuthConfig` at `config.ts:191-197`:
defaults overridden by `...options?.session`, with the default
`strategy: options?.adapter ? 'database' : 'jwt'`. -/
def resolveSessionConfig (options : Option AuthUserConfig) : ResolvedSessionConfig :=
  let userSession := options.bind (·.session)
  { strategy :=
      (userSession.bind (·.strategy)).getD
        (if (options.map (·.adapter)).getD false then "database" else "jwt")
  , maxAge := (userSession.bind (·.maxAge)).getD (30 * 24 * 60 * 60)
  , updateAge := (userSession.bind (·.updateAge)).getD (24 * 60 * 60) }

/-- A web request, by the two fields the dispatch reads. -/
structure WebRequest where
  method : String
  pathname : String
  deriving DecidableEq, Repr

/-- JS `str.replace(/\/$/, '')`: drop one trailing slash. -/
def dropTrailingSlash (s : String) : String :=
  if s.endsWith "/" then s.dropRight 1 else s

/-- `isCredentialsCallback` at `handler.ts:52-58`, on the request's
pathname. -/
def isCredentialsCallback (req : WebRequest) : Bool :=
  (dropTrailingSlash req.pathname).endsWith "/callback/credentials"

/-- The dispatch condition at `handler.ts:33` guarding the credentials
cookie-rewrite path. -/
def entersCredentialsRewrite (req : WebRequest) (strategy : String) : Bool :=
  req.method == "POST" && strategy == "database" && isCredentialsCallback req

/-! ### Round-trip lemmas for the payload serialization -/

theorem decNat_encNat (n : Nat) (rest : List Bool) :
    decNat (encNat n ++ rest) = some (n, rest) := by
  induction n with
  | zero => rfl
  | succ n ih =>
      have hshape : encNat (n + 1) ++ rest = true :: (encNat n ++ rest) := by
        simp [encNat, List.replicate_succ]
      rw [hshape]
      simp [decNat, ih]

theorem decInt_encInt (i : Int) (rest : List Bool) :
    decInt (encInt i ++ rest) = some (i, rest) := by
  simp only [encInt, List.cons_append, decInt, decNat_encNat]
  split
  · rename_i hc
    simp only [decide_eq_true_eq] at hc
    have hval : -((i.natAbs : Int)) = i := by omega
    rw [hval]
  · rename_i hc
    simp only [decide_eq_true_eq] at hc
    have hval : ((i.natAbs : Int)) = i := by omega
    rw [hval]

theorem decChars_encChars (cs : List Char) (rest : List Bool) :
    decChars cs.length ((cs.map encChar).flatten ++ rest) = some (cs, rest) := by
  induction cs with
  | nil => rfl
  | cons c cs ih =>
      simp only [List.map_cons, List.flatten_cons, List.length_cons, List.append_assoc,
        encChar]
      simp [decChars, decNat_encNat, ih, Char.ofNat_toNat]

theorem decStr_encStr (s : String) (rest : List Bool) :
    decStr (encStr s ++ rest) = some (s, rest) := by
  simp only [encStr, List.append_assoc, decStr, decNat_encNat, decChars_encChars]

theorem decVal_encVal (v : JsonVal) (rest : List Bool) :
    decVal (encVal v ++ rest) = some (v, rest) := by
  cases v with
  | str s => simp [encVal, decVal, decStr_encStr]
  | num i => simp [encVal, decVal, decInt_encInt]
  | bool b => simp [encVal, decVal]
  | null => simp [encVal, decVal]

theorem decPairs_encPairs (c : Claims) (rest : List Bool) :
    decPairs c.length ((c.map encPair).flatten ++ rest) = some (c, rest) := by
  induction c with
  | nil => rfl
  | cons kv c ih =>
      obtain ⟨k, v⟩ := kv
      simp only [List.map_cons, List.flatten_cons, List.length_cons, encPair,
        List.append_assoc]
      simp [decPairs, decStr_encStr, decVal_encVal, ih]

theorem decClaims_encClaims (c : Claims) : decClaims (encClaims c) = some c := by
  have h := decPairs_encPairs c []
  simp only [List.append_nil] at h
  simp [encClaims, decClaims, decNat_encNat, h]

/-! ### Lemmas about JSON object reads and writes -/

theorem lookupClaim_setClaim_self (k : String) (v : JsonVal) (c : Claims) :
    lookupClaim (setClaim k v c) k = some v := by
  unfold setClaim
  induction c with
  | nil => simp [lookupClaim]
  | cons kv c ih =>
      obtain ⟨k0, v0⟩ := kv
      by_cases h : k0 = k
      · simp [List.filter_cons, h, ih]
      · simp [List.filter_cons, h, lookupClaim, ih]

theorem lookupClaim_setClaim_ne (k k' : String) (v : JsonVal) (c : Claims)
    (h : k' ≠ k) :
    lookupClaim (setClaim k v c) k' = lookupClaim c k' := by
  have h2 : k ≠ k' := fun he => h he.symm
  unfold setClaim
  induction c with
  | nil => simp [lookupClaim, h2]
  | cons kv c ih =>
      obtain ⟨k0, v0⟩ := kv
      by_cases h0 : k0 = k
      · subst h0
        simp [List.filter_cons, lookupClaim, h2, ih]
      · simp [List.filter_cons, h0, lookupClaim, ih]

theorem eraseTimingClaims_setClaim (k : String) (v : JsonVal) (c : Claims)
    (hk : k = "iat" ∨ k = "exp" ∨ k = "jti") :
    eraseTimingClaims (setClaim k v c) = eraseTimingClaims c := by
  unfold eraseTimingClaims setClaim
  induction c with
  | nil => rcases hk with h | h | h <;> subst h <;> simp
  | cons kv c ih =>
      obtain ⟨k0, v0⟩ := kv
      by_cases h0 : k0 = k
      · subst h0
        rcases hk with h | h | h <;> subst h <;> simp [List.filter_cons, ih]
      · simp [List.filter_cons, h0, ih]

/-! ### The honest encode/decode path -/

/-- The key `getDerivedEncryptionKey` produces for the default content
encryption and non-empty inputs. -/
def derivedKeyOf (S A : String) : DerivedKey :=
  ⟨"sha256", S, A, s!"Auth Encryption Key ({A})", 64⟩

/-- The payload `encode` stamps: the caller's claims with `iat`, `exp` and
`jti` set. -/
def stampedPayload (token : Claims) (now maxAge : Int) (jti : String) : Claims :=
  setClaim "jti" (.str jti)
    (setClaim "exp" (.num (now + maxAge))
      (setClaim "iat" (.num now) token))

theorem exBind_ok {ε α β : Type} (a : α) (f : α → Except ε β) :
    (Except.ok a : Except ε α).bind f = f a := rfl

theorem exBind_error {ε α β : Type} (e : ε) (f : α → Except ε β) :
    (Except.error e : Except ε α).bind f = .error e := rfl

theorem exMap_ok {ε α β : Type} (f : α → β) (a : α) :
    (Except.ok a : Except ε α).map f = .ok (f a) := rfl

theorem exMap_error {ε α β : Type} (f : α → β) (e : ε) :
    (Except.error e : Except ε α).map f = .error e := rfl

theorem getDerivedEncryptionKey_cbc (S A : String) (hS : S ≠ "") (hA : A ≠ "") :
    getDerivedEncryptionKey jweEnc S A = .ok (derivedKeyOf S A) := by
  have h1 : encKeyLength jweEnc = .ok 64 := rfl
  unfold getDerivedEncryptionKey
  rw [h1, exBind_ok]
  unfold hkdf derivedKeyOf
  rw [if_neg (not_or.mpr ⟨hS, hA⟩)]

theorem encode_ok (C : Claims) (S A : String) (maxAge now : Int) (jti : String)
    (hS : S ≠ "") (hA : A ≠ "") :
    encode C (.single S) maxAge A now jti =
      .ok (jweEncrypt ⟨jweAlg, jweEnc, some (keyThumbprint (derivedKeyOf S A))⟩
            (stampedPayload C now maxAge jti) (derivedKeyOf S A)) := by
  unfold encode
  simp only [SecretInput.toList, List.headD_cons]
  rw [getDerivedEncryptionKey_cbc S A hS hA, exBind_ok]
  rfl

theorem keyThumbprint_derivedKeyOf_ne (S1 S2 A : String) (h : S1 ≠ S2) :
    keyThumbprint (derivedKeyOf S1 A) ≠ keyThumbprint (derivedKeyOf S2 A) := by
  intro he
  apply h
  have hk := congrArg (fun t => t.k.ikm) he
  simpa [keyThumbprint, calculateJwkThumbprint, derivedKeyOf] using hk

theorem decodeKeySelector_head_match (S A : String) (rest : List String)
    (hS : S ≠ "") (hA : A ≠ "") :
    decodeKeySelector (S :: rest) A (some (keyThumbprint (derivedKeyOf S A))) jweEnc =
      .ok (derivedKeyOf S A) := by
  conv_lhs => unfold decodeKeySelector
  rw [getDerivedEncryptionKey_cbc S A hS hA, exBind_ok]
  simp

theorem decodeKeySelector_head_skip (S1 S2 A : String) (rest : List String)
    (h12 : S1 ≠ S2) (h2 : S2 ≠ "") (hA : A ≠ "") :
    decodeKeySelector (S2 :: rest) A (some (keyThumbprint (derivedKeyOf S1 A))) jweEnc =
      decodeKeySelector rest A (some (keyThumbprint (derivedKeyOf S1 A))) jweEnc := by
  conv_lhs => unfold decodeKeySelector
  rw [getDerivedEncryptionKey_cbc S2 A h2 hA, exBind_ok]
  simp [keyThumbprint_derivedKeyOf_ne S1 S2 A h12]

theorem decode_tok (t : JweToken) (si : SecretInput) (A : String) (decNow : Int) :
    decode (.tok t) si A decNow =
      (jwtDecrypt t (fun h => decodeKeySelector si.toList A h.kid h.enc) decNow 15
        [jweAlg] [jweEnc, "A256GCM"]).map some := rfl

theorem jwtDecrypt_header_ok (t : JweToken)
    (getKey : JweHeader → Except CodecError DerivedKey) (now tol : Int)
    (halg : t.header.alg = jweAlg) (henc : t.header.enc = jweEnc) :
    jwtDecrypt t getKey now tol [jweAlg] [jweEnc, "A256GCM"] =
      (getKey t.header).bind fun key =>
        (jweDecrypt key t).bind fun payload =>
          validateExp payload now tol := by
  unfold jwtDecrypt
  rw [if_pos (by simp [halg]), if_pos (by simp [henc])]

/-- Decoding an honestly encoded token through any secret input whose key
selection resolves to the encoding key: the result is the stamped payload,
gated by the expiration check with the 15-second clock tolerance. -/
theorem decode_encoded_token_gen (C : Claims) (S A : String)
    (maxAge encNow decNow : Int) (jti : String) (hS : S ≠ "") (hA : A ≠ "")
    (si : SecretInput) (tok : JweToken)
    (htok : encode C (.single S) maxAge A encNow jti = .ok tok)
    (hsel : decodeKeySelector si.toList A
        (some (keyThumbprint (derivedKeyOf S A))) jweEnc = .ok (derivedKeyOf S A)) :
    decode (.tok tok) si A decNow =
      if encNow + maxAge ≤ decNow - 15 then .error .tokenValidation
      else .ok (some (stampedPayload C encNow maxAge jti)) := by
  rw [encode_ok C S A maxAge encNow jti hS hA] at htok
  have htok2 : tok = jweEncrypt ⟨jweAlg, jweEnc, some (keyThumbprint (derivedKeyOf S A))⟩
      (stampedPayload C encNow maxAge jti) (derivedKeyOf S A) := by
    cases htok
    rfl
  subst htok2
  rw [decode_tok, jwtDecrypt_header_ok _ _ _ _ rfl rfl]
  have hkid : (jweEncrypt ⟨jweAlg, jweEnc, some (keyThumbprint (derivedKeyOf S A))⟩
      (stampedPayload C encNow maxAge jti) (derivedKeyOf S A)).header.kid =
      some (keyThumbprint (derivedKeyOf S A)) := rfl
  have henc2 : (jweEncrypt ⟨jweAlg, jweEnc, some (keyThumbprint (derivedKeyOf S A))⟩
      (stampedPayload C encNow maxAge jti) (derivedKeyOf S A)).header.enc = jweEnc := rfl
  rw [hkid, henc2, hsel, exBind_ok]
  have hdec : jweDecrypt (derivedKeyOf S A)
      (jweEncrypt ⟨jweAlg, jweEnc, some (keyThumbprint (derivedKeyOf S A))⟩
        (stampedPayload C encNow maxAge jti) (derivedKeyOf S A)) =
      .ok (stampedPayload C encNow maxAge jti) := by
    unfold jweDecrypt jweEncrypt
    rw [if_pos rfl, decClaims_encClaims]
  rw [hdec, exBind_ok]
  have hexp : lookupClaim (stampedPayload C encNow maxAge jti) "exp" =
      some (.num (encNow + maxAge)) := by
    unfold stampedPayload
    rw [lookupClaim_setClaim_ne "jti" "exp" _ _ (by decide),
      lookupClaim_setClaim_self]
  unfold validateExp
  rw [hexp]
  by_cases hle : encNow + maxAge ≤ decNow - 15
  · simp [hle, Except.map]
  · simp [hle, Except.map]

/-- Decoding a non-empty token whose key selection fails propagates the
selection error. -/
theorem decode_selector_error (t : JweToken) (si : SecretInput) (A : String)
    (decNow : Int) (e : CodecError)
    (halg : t.header.alg = jweAlg) (henc : t.header.enc = jweEnc)
    (hsel : decodeKeySelector si.toList A t.header.kid t.header.enc = .error e) :
    decode (.tok t) si A decNow = .error e := by
  rw [decode_tok, jwtDecrypt_header_ok _ _ _ _ halg henc]
  rw [hsel, exBind_error, exMap_error]

theorem encClaims_length_pos (c : Claims) : 0 < (encClaims c).length := by
  simp [encClaims, encNat]

theorem flipBit_ne (i : Nat) (l : List Bool) (h : i < l.length) : flipBit i l ≠ l := by
  intro heq
  have hget : (flipBit i l)[i]? = some (!(l.getD i false)) := by
    unfold flipBit
    rw [List.getElem?_set_self']
    simp [List.getElem?_eq_getElem h, List.getD_eq_getElem l false h]
  rw [heq, List.getElem?_eq_getElem h, List.getD_eq_getElem l false h] at hget
  simp at hget

/-! ### Claim theorems: the token codec -/

/-- C1: decoding a token produced by `encode` with claims `C`, secret `S`
and salt `A`, using the secret list `[S]` and the same salt, returns exactly
`C` up to the `iat`/`exp`/`jti` fields stamped by `encode`, and those
satisfy `issuedAt ≤ now ≤ expiration` at the moment of encoding. -/
theorem encode_decode_roundtrip (C : Claims) (S A : String) (now : Int)
    (jti : String) (hS : S ≠ "") (hA : A ≠ "") :
    ∃ tok payload iat exp,
      encode C (.single S) DEFAULT_MAX_AGE A now jti = .ok tok ∧
      decode (.tok tok) (.list [S]) A now = .ok (some payload) ∧
      eraseTimingClaims payload = eraseTimingClaims C ∧
      lookupClaim payload "iat" = some (.num iat) ∧
      lookupClaim payload "exp" = some (.num exp) ∧
      lookupClaim payload "jti" = some (.str jti) ∧
      iat ≤ now ∧ now ≤ exp := by
  have hMA : DEFAULT_MAX_AGE = 2592000 := rfl
  have htok := encode_ok C S A DEFAULT_MAX_AGE now jti hS hA
  have hdec := decode_encoded_token_gen C S A DEFAULT_MAX_AGE now now jti hS hA
    (.list [S]) _ htok (decodeKeySelector_head_match S A [] hS hA)
  rw [if_neg (by rw [hMA]; omega)] at hdec
  refine ⟨_, stampedPayload C now DEFAULT_MAX_AGE jti, now, now + DEFAULT_MAX_AGE,
    htok, hdec, ?_, ?_, ?_, ?_, le_refl now, by rw [hMA]; omega⟩
  · unfold stampedPayload
    rw [eraseTimingClaims_setClaim _ _ _ (Or.inr (Or.inr rfl)),
      eraseTimingClaims_setClaim _ _ _ (Or.inr (Or.inl rfl)),
      eraseTimingClaims_setClaim _ _ _ (Or.inl rfl)]
  · unfold stampedPayload
    rw [lookupClaim_setClaim_ne "jti" "iat" _ _ (by decide),
      lookupClaim_setClaim_ne "exp" "iat" _ _ (by decide),
      lookupClaim_setClaim_self]
  · unfold stampedPayload
    rw [lookupClaim_setClaim_ne "jti" "exp" _ _ (by decide),
      lookupClaim_setClaim_self]
  · unfold stampedPayload
    rw [lookupClaim_setClaim_self]

theorem encode_decode_roundtrip_witness :
    ∃ tok payload iat exp,
      encode [("sub", .str "user-1")] (.single "secret-1") DEFAULT_MAX_AGE "salt-a"
        1000 "jti-1" = .ok tok ∧
      decode (.tok tok) (.list ["secret-1"]) "salt-a" 1000 = .ok (some payload) ∧
      eraseTimingClaims payload = eraseTimingClaims [("sub", .str "user-1")] ∧
      lookupClaim payload "iat" = some (.num iat) ∧
      lookupClaim payload "exp" = some (.num exp) ∧
      lookupClaim payload "jti" = some (.str "jti-1") ∧
      iat ≤ 1000 ∧ 1000 ≤ exp :=
  encode_decode_roundtrip [("sub", .str "user-1")] "secret-1" "salt-a" 1000 "jti-1"
    (by decide) (by decide)

/-- C2: a token encoded under `S1` decodes with the rotated secret list
`[S2, S1]` (the key identifier selects `S1`), while decoding with `[S2]`
alone fails with the no-matching-decryption-secret error — an error result,
never the null no-session result. -/
theorem decode_rotation (C : Claims) (S1 S2 A : String) (now : Int) (jti : String)
    (h12 : S1 ≠ S2) (h1 : S1 ≠ "") (h2 : S2 ≠ "") (hA : A ≠ "") :
    ∃ tok,
      encode C (.single S1) DEFAULT_MAX_AGE A now jti = .ok tok ∧
      (∃ payload, decode (.tok tok) (.list [S2, S1]) A now = .ok (some payload)) ∧
      decode (.tok tok) (.list [S2]) A now = .error .noMatchingDecryptionSecret := by
  have hMA : DEFAULT_MAX_AGE = 2592000 := rfl
  have htok := encode_ok C S1 A DEFAULT_MAX_AGE now jti h1 hA
  have hsel2 : decodeKeySelector [S2, S1] A
      (some (keyThumbprint (derivedKeyOf S1 A))) jweEnc = .ok (derivedKeyOf S1 A) := by
    rw [decodeKeySelector_head_skip S1 S2 A [S1] h12 h2 hA]
    exact decodeKeySelector_head_match S1 A [] h1 hA
  have hok := decode_encoded_token_gen C S1 A DEFAULT_MAX_AGE now now jti h1 hA
    (.list [S2, S1]) _ htok hsel2
  rw [if_neg (by rw [hMA]; omega)] at hok
  have hselfail : decodeKeySelector [S2] A
      (some (keyThumbprint (derivedKeyOf S1 A))) jweEnc =
      .error .noMatchingDecryptionSecret := by
    rw [decodeKeySelector_head_skip S1 S2 A [] h12 h2 hA]
    rfl
  have hfail := decode_selector_error
    (jweEncrypt ⟨jweAlg, jweEnc, some (keyThumbprint (derivedKeyOf S1 A))⟩
      (stampedPayload C now DEFAULT_MAX_AGE jti) (derivedKeyOf S1 A))
    (.list [S2]) A now .noMatchingDecryptionSecret rfl rfl hselfail
  exact ⟨_, htok, ⟨_, hok⟩, hfail⟩

theorem decode_rotation_witness :
    ∃ tok,
      encode [("sub", .str "u")] (.single "secret-1") DEFAULT_MAX_AGE "salt-a"
        0 "j" = .ok tok ∧
      (∃ payload, decode (.tok tok) (.list ["secret-2", "secret-1"]) "salt-a" 0 =
        .ok (some payload)) ∧
      decode (.tok tok) (.list ["secret-2"]) "salt-a" 0 =
        .error .noMatchingDecryptionSecret :=
  decode_rotation [("sub", .str "u")] "secret-1" "secret-2" "salt-a" 0 "j"
    (by decide) (by decide) (by decide) (by decide)

/-- C3: flipping any single bit in the ciphertext of an encoded token makes
`decode` fail with the token-validation error; in particular no tampered
token ever decodes to a claims map. -/
theorem decode_tamper_detection (C : Claims) (S A : String) (now : Int)
    (jti : String) (hS : S ≠ "") (hA : A ≠ "") (tok : JweToken)
    (htok : encode C (.single S) DEFAULT_MAX_AGE A now jti = .ok tok) :
    ∀ i, i < tok.ciphertext.length →
      decode (.tok (tamperCiphertext tok i)) (.list [S]) A now =
        .error .tokenValidation ∧
      ∀ payload, decode (.tok (tamperCiphertext tok i)) (.list [S]) A now ≠
        .ok (some payload) := by
  rw [encode_ok C S A DEFAULT_MAX_AGE now jti hS hA] at htok
  have htok2 : tok = jweEncrypt ⟨jweAlg, jweEnc, some (keyThumbprint (derivedKeyOf S A))⟩
      (stampedPayload C now DEFAULT_MAX_AGE jti) (derivedKeyOf S A) := by
    cases htok
    rfl
  subst htok2
  intro i hi
  have hmain : decode (.tok (tamperCiphertext
      (jweEncrypt ⟨jweAlg, jweEnc, some (keyThumbprint (derivedKeyOf S A))⟩
        (stampedPayload C now DEFAULT_MAX_AGE jti) (derivedKeyOf S A)) i))
      (.list [S]) A now = .error .tokenValidation := by
    rw [decode_tok, jwtDecrypt_header_ok _ _ _ _ rfl rfl]
    have hsel : decodeKeySelector (SecretInput.list [S]).toList A
        (tamperCiphertext
          (jweEncrypt ⟨jweAlg, jweEnc, some (keyThumbprint (derivedKeyOf S A))⟩
            (stampedPayload C now DEFAULT_MAX_AGE jti) (derivedKeyOf S A)) i).header.kid
        (tamperCiphertext
          (jweEncrypt ⟨jweAlg, jweEnc, some (keyThumbprint (derivedKeyOf S A))⟩
            (stampedPayload C now DEFAULT_MAX_AGE jti) (derivedKeyOf S A)) i).header.enc =
        .ok (derivedKeyOf S A) :=
      decodeKeySelector_head_match S A [] hS hA
    rw [hsel, exBind_ok]
    have hne := flipBit_ne i (encClaims (stampedPayload C now DEFAULT_MAX_AGE jti)) hi
    have hdec : jweDecrypt (derivedKeyOf S A)
        (tamperCiphertext
          (jweEncrypt ⟨jweAlg, jweEnc, some (keyThumbprint (derivedKeyOf S A))⟩
            (stampedPayload C now DEFAULT_MAX_AGE jti) (derivedKeyOf S A)) i) =
        .error .tokenValidation := by
      unfold jweDecrypt
      rw [if_neg (fun he => hne (congrArg AuthTag.data he).symm)]
    rw [hdec, exBind_error, exMap_error]
  refine ⟨hmain, ?_⟩
  intro payload hcontra
  rw [hmain] at hcontra
  exact Except.noConfusion hcontra

theorem decode_tamper_detection_witness :
    ∃ tok, encode [("sub", .str "u")] (.single "s") DEFAULT_MAX_AGE "a" 0 "j" = .ok tok ∧
      0 < tok.ciphertext.length ∧
      decode (.tok (tamperCiphertext tok 0)) (.list ["s"]) "a" 0 =
        .error .tokenValidation := by
  refine ⟨_, rfl, encClaims_length_pos _, ?_⟩
  exact (decode_tamper_detection [("sub", .str "u")] "s" "a" 0 "j"
    (by decide) (by decide) _ rfl 0 (encClaims_length_pos _)).1

/-- C5: the 15-second clock tolerance on expiration — a token whose
expiration lies 10 seconds in the past still decodes, one whose expiration
lies 20 seconds in the past fails. -/
theorem decode_expiry_tolerance (C : Claims) (S A : String) (encNow maxAge : Int)
    (jti : String) (hS : S ≠ "") (hA : A ≠ "") :
    ∃ tok,
      encode C (.single S) maxAge A encNow jti = .ok tok ∧
      (∃ payload,
        decode (.tok tok) (.list [S]) A (encNow + maxAge + 10) = .ok (some payload)) ∧
      decode (.tok tok) (.list [S]) A (encNow + maxAge + 20) =
        .error .tokenValidation := by
  have htok := encode_ok C S A maxAge encNow jti hS hA
  have h10 := decode_encoded_token_gen C S A maxAge encNow (encNow + maxAge + 10) jti
    hS hA (.list [S]) _ htok (decodeKeySelector_head_match S A [] hS hA)
  rw [if_neg (by omega)] at h10
  have h20 := decode_encoded_token_gen C S A maxAge encNow (encNow + maxAge + 20) jti
    hS hA (.list [S]) _ htok (decodeKeySelector_head_match S A [] hS hA)
  rw [if_pos (by omega)] at h20
  exact ⟨_, htok, ⟨_, h10⟩, h20⟩

theorem decode_expiry_tolerance_witness :
    ∃ tok,
      encode [("sub", .str "u")] (.single "s") 100 "a" 0 "j" = .ok tok ∧
      (∃ payload, decode (.tok tok) (.list ["s"]) "a" (0 + 100 + 10) = .ok (some payload)) ∧
      decode (.tok tok) (.list ["s"]) "a" (0 + 100 + 20) = .error .tokenValidation :=
  decode_expiry_tolerance [("sub", .str "u")] "s" "a" 0 100 "j" (by decide) (by decide)

/-- C6: the key-selection callback iterates the candidate secrets in list
order; with no key identifier it accepts the first derived key
unconditionally; with a key identifier it accepts a derived key exactly when
that key's thumbprint equals the identifier, and otherwise moves on to the
next secret. -/
theorem decodeKeySelector_spec (salt enc : String) :
    (∀ s rest, decodeKeySelector (s :: rest) salt none enc =
      getDerivedEncryptionKey enc s salt) ∧
    (∀ secrets k K, decodeKeySelector secrets salt (some k) enc = .ok K →
      keyThumbprint K = k) ∧
    (∀ s rest k K, getDerivedEncryptionKey enc s salt = .ok K →
      k = keyThumbprint K →
      decodeKeySelector (s :: rest) salt (some k) enc = .ok K) ∧
    (∀ s rest k K, getDerivedEncryptionKey enc s salt = .ok K →
      k ≠ keyThumbprint K →
      decodeKeySelector (s :: rest) salt (some k) enc =
        decodeKeySelector rest salt (some k) enc) := by
  refine ⟨?_, ?_, ?_, ?_⟩
  · intro s rest
    conv_lhs => unfold decodeKeySelector
    cases hd : getDerivedEncryptionKey enc s salt with
    | error e => rw [exBind_error]
    | ok K => simp [exBind_ok]
  · intro secrets
    induction secrets with
    | nil =>
        intro k K h
        exact absurd h (by simp [decodeKeySelector])
    | cons s rest ih =>
        intro k K h
        unfold decodeKeySelector at h
        cases hd : getDerivedEncryptionKey enc s salt with
        | error e =>
            rw [hd, exBind_error] at h
            exact Except.noConfusion h
        | ok K' =>
            rw [hd, exBind_ok] at h
            simp only [] at h
            by_cases heq : k = keyThumbprint K'
            · rw [if_pos heq] at h
              injection h with h2
              subst h2
              exact heq.symm
            · rw [if_neg heq] at h
              exact ih k K h
  · intro s rest k K hk heq
    conv_lhs => unfold decodeKeySelector
    rw [hk, exBind_ok]
    simp [heq]
  · intro s rest k K hk hne
    conv_lhs => unfold decodeKeySelector
    rw [hk, exBind_ok]
    simp [hne]

theorem decodeKeySelector_spec_witness :
    decodeKeySelector ["s1"] "a"
      (some (keyThumbprint (derivedKeyOf "s1" "a"))) jweEnc =
      .ok (derivedKeyOf "s1" "a") :=
  (decodeKeySelector_spec "a" jweEnc).2.2.1 "s1" []
    (keyThumbprint (derivedKeyOf "s1" "a")) (derivedKeyOf "s1" "a")
    (getDerivedEncryptionKey_cbc "s1" "a" (by decide) (by decide)) rfl

/-- C7: `decode` returns the null no-session sentinel exactly when the token
is empty or absent; every other outcome is either a decoded claims map or a
propagated error. -/
theorem decode_null_iff_no_token (token : TokenParam) (secret : SecretInput)
    (A : String) (now : Int) :
    decode token secret A now = .ok none ↔ token = .absent ∨ token = .empty := by
  constructor
  · intro h
    cases token with
    | absent => exact Or.inl rfl
    | empty => exact Or.inr rfl
    | tok t =>
        exfalso
        rw [decode_tok] at h
        cases hj : jwtDecrypt t (fun hh => decodeKeySelector secret.toList A hh.kid hh.enc)
            now 15 [jweAlg] [jweEnc, "A256GCM"] with
        | error e =>
            rw [hj, exMap_error] at h
            exact Except.noConfusion h
        | ok p =>
            rw [hj, exMap_ok] at h
            simp at h
  · rintro (rfl | rfl) <;> rfl

/-- C8: key derivation is deterministic in the `(secret, salt)` inputs, and
for the supported content encryptions it fails with the invalid-input error
when the secret or the salt is empty. -/
theorem getDerivedEncryptionKey_deterministic_empty (enc S A S' A' : String)
    (henc : enc = "A256CBC-HS512" ∨ enc = "A256GCM")
    (hS : S = S') (hA : A = A') :
    getDerivedEncryptionKey enc S A = getDerivedEncryptionKey enc S' A' ∧
    ((S = "" ∨ A = "") →
      getDerivedEncryptionKey enc S A = .error .invalidInput) := by
  subst hS
  subst hA
  refine ⟨rfl, ?_⟩
  intro h
  rcases henc with rfl | rfl
  · unfold getDerivedEncryptionKey
    rw [show encKeyLength "A256CBC-HS512" = .ok 64 from rfl, exBind_ok]
    unfold hkdf
    rw [if_pos h]
  · unfold getDerivedEncryptionKey
    rw [show encKeyLength "A256GCM" = .ok 32 from rfl, exBind_ok]
    unfold hkdf
    rw [if_pos h]

theorem getDerivedEncryptionKey_deterministic_empty_witness :
    getDerivedEncryptionKey "A256CBC-HS512" "" "salt-a" =
      getDerivedEncryptionKey "A256CBC-HS512" "" "salt-a" ∧
    ((("" : String) = "" ∨ ("salt-a" : String) = "") →
      getDerivedEncryptionKey "A256CBC-HS512" "" "salt-a" = .error .invalidInput) :=
  getDerivedEncryptionKey_deterministic_empty "A256CBC-HS512" "" "salt-a" "" "salt-a"
    (Or.inl rfl) rfl rfl

/-! ### Claim theorems: the credentials cookie rewrite and dispatch -/

/-- A raw `Set-Cookie` header rendered from a cookie name and the remainder
of the header text after the `=`. -/
def renderCookie (p : String × String) : String := p.1 ++ "=" ++ p.2

theorem isPrefixOf_eqmark (lm : List Char) :
    ∀ (ln lr : List Char), '=' ∉ ln → '=' ∉ lm →
      ((lm ++ ['=']).isPrefixOf (ln ++ '=' :: lr) = true ↔ lm = ln) := by
  induction lm with
  | nil =>
      intro ln lr hn hm
      cases ln with
      | nil => simp [List.isPrefixOf]
      | cons a as =>
          have ha : ¬('=' = a) := fun h => hn (by rw [h]; exact List.mem_cons_self a as)
          simp [List.isPrefixOf, ha]
  | cons b bs ih =>
      intro ln lr hn hm
      have hb : ¬(b = '=') := fun h => hm (by rw [← h]; exact List.mem_cons_self b bs)
      have hm' : '=' ∉ bs := fun hx => hm (List.mem_cons_of_mem b hx)
      cases ln with
      | nil => simp [List.isPrefixOf, hb]
      | cons a as =>
          have hn' : '=' ∉ as := fun hx => hn (List.mem_cons_of_mem a hx)
          simp [List.isPrefixOf, ih as lr hn' hm']

theorem jsStartsWith_rendered_iff (nm rest sessionName : String)
    (hn : '=' ∉ nm.data) (hm : '=' ∉ sessionName.data) :
    jsStartsWith (renderCookie (nm, rest)) (sessionName ++ "=") = true ↔
      sessionName = nm := by
  unfold jsStartsWith renderCookie
  have h1 : (nm ++ "=" ++ rest).data = nm.data ++ '=' :: rest.data := by
    rw [String.data_append, String.data_append]
    show (nm.data ++ ['=']) ++ rest.data = nm.data ++ '=' :: rest.data
    simp
  have h2 : (sessionName ++ "=").data = sessionName.data ++ ['='] := by
    rw [String.data_append]
  rw [h1, h2, isPrefixOf_eqmark sessionName.data nm.data rest.data hn hm]
  constructor
  · intro h
    cases sessionName
    cases nm
    exact congrArg String.mk h
  · intro h
    rw [h]

theorem filter_rendered_cookies (entries : List (String × String)) (sessionName : String)
    (hm : '=' ∉ sessionName.data)
    (hn : ∀ e ∈ entries, '=' ∉ e.1.data) :
    (entries.map renderCookie).filter
        (fun cookie => !(jsStartsWith cookie (sessionName ++ "="))) =
      (entries.filter (fun e => e.1 != sessionName)).map renderCookie := by
  induction entries with
  | nil => rfl
  | cons e es ih =>
      obtain ⟨nm, rest⟩ := e
      have hne : '=' ∉ nm.data := hn (nm, rest) (List.mem_cons_self _ _)
      have hes : ∀ x ∈ es, '=' ∉ x.1.data := fun x hx => hn x (List.mem_cons_of_mem _ hx)
      by_cases he : sessionName = nm
      · have hpref : jsStartsWith (renderCookie (nm, rest)) (sessionName ++ "=") = true :=
          (jsStartsWith_rendered_iff nm rest sessionName hne hm).mpr he
        subst he
        simp [List.filter_cons, hpref, ih hes]
      · have hpref : jsStartsWith (renderCookie (nm, rest)) (sessionName ++ "=") = false := by
          rw [← Bool.not_eq_true]
          exact fun hx => he ((jsStartsWith_rendered_iff nm rest sessionName hne hm).mp hx)
        have hne2 : (nm != sessionName) = true := by
          simp only [bne_iff_ne, ne_eq]
          exact fun hx => he hx.symm
        simp [List.filter_cons, hpref, hne2, ih hes]

/-- C4: after a successful credentials sign-in with a created session
record, the final `Set-Cookie` headers are exactly the original headers
whose cookie name differs from the configured session-cookie name, kept
verbatim and in order, followed by exactly one serialized session cookie
whose value is the store-generated session token. -/
theorem credentials_cookie_substitution (config : HandlerConfig)
    (createSession : SessionRecord → SessionRecord) (uid : String)
    (rawResponse : WebResponse) (nowMs : Int)
    (entries : List (String × String))
    (hraw : rawResponse.setCookies = entries.map renderCookie)
    (hn : ∀ e ∈ entries, '=' ∉ e.1.data)
    (hm : '=' ∉ config.sessionCookieName.data) :
    ∃ created : SessionRecord,
      created = createSession
        { userId := uid
        , sessionToken := config.generateSessionToken
        , expires := nowMs +
            (if config.sessionMaxAge = 0 then 2592000 else config.sessionMaxAge) * 1000 } ∧
      handleCredentialsCallback config createSession (some ⟨some uid⟩) rawResponse nowMs =
        ({ rawResponse with
            setCookies :=
              (entries.filter (fun e => e.1 != config.sessionCookieName)).map
                  renderCookie ++
                [serialize config.sessionCookieName created.sessionToken
                  { config.sessionCookieOptions with expires := some created.expires }] },
          [created]) := by
  refine ⟨_, rfl, ?_⟩
  have hred : handleCredentialsCallback config createSession (some ⟨some uid⟩)
      rawResponse nowMs =
      ({ rawResponse with
          setCookies :=
            rawResponse.setCookies.filter
                (fun cookie =>
                  !(jsStartsWith cookie (config.sessionCookieName ++ "="))) ++
              [serialize config.sessionCookieName
                (createSession
                  { userId := uid
                  , sessionToken := config.generateSessionToken
                  , expires := nowMs +
                      (if config.sessionMaxAge = 0 then 2592000
                        else config.sessionMaxAge) * 1000 }).sessionToken
                { config.sessionCookieOptions with
                    expires := some (createSession
                      { userId := uid
                      , sessionToken := config.generateSessionToken
                      , expires := nowMs +
                          (if config.sessionMaxAge = 0 then 2592000
                            else config.sessionMaxAge) * 1000 }).expires }] },
        [createSession
          { userId := uid
          , sessionToken := config.generateSessionToken
          , expires := nowMs +
              (if config.sessionMaxAge = 0 then 2592000
                else config.sessionMaxAge) * 1000 }]) := rfl
  rw [hred, hraw, filter_rendered_cookies entries config.sessionCookieName hm hn]

theorem credentials_cookie_substitution_witness :
    ∃ created : SessionRecord,
      created = id ({ userId := "u1", sessionToken := "tok123"
                    , expires := (0 : Int) +
                        (if (2592000 : Int) = 0 then 2592000 else 2592000) * 1000 } :
                    SessionRecord) ∧
      handleCredentialsCallback ⟨"sessionToken", ⟨"", none⟩, 2592000, "tok123"⟩ id
          (some ⟨some "u1"⟩)
          ⟨[renderCookie ("sessionToken", "default-cookie"),
            renderCookie ("csrfToken", "abc")], "rest"⟩ 0 =
        ({ setCookies :=
            ([("sessionToken", "default-cookie"), ("csrfToken", "abc")].filter
                (fun e => e.1 != "sessionToken")).map renderCookie ++
              [serialize "sessionToken" created.sessionToken
                { attrs := "", expires := some created.expires }]
         , rest := "rest" },
          [created]) :=
  credentials_cookie_substitution ⟨"sessionToken", ⟨"", none⟩, 2592000, "tok123"⟩ id
    "u1" ⟨[renderCookie ("sessionToken", "default-cookie"),
      renderCookie ("csrfToken", "abc")], "rest"⟩ 0
    [("sessionToken", "default-cookie"), ("csrfToken", "abc")] rfl
    (by decide) (by decide)

/-- C9: when credential verification fails (no authenticated user id), no
session record is created, no cookie substitution happens, and the library's
response is returned unchanged. -/
theorem credentials_failure_frame (config : HandlerConfig)
    (createSession : SessionRecord → SessionRecord) (authUser : Option User)
    (rawResponse : WebResponse) (nowMs : Int)
    (hfail : authUser.bind (fun u => u.id) = none) :
    handleCredentialsCallback config createSession authUser rawResponse nowMs =
      (rawResponse, []) := by
  unfold handleCredentialsCallback patchedJwtCallback
  rw [hfail]

theorem credentials_failure_frame_witness :
    handleCredentialsCallback ⟨"sessionToken", ⟨"", none⟩, 2592000, "tok123"⟩ id
      none ⟨[renderCookie ("csrfToken", "abc")], "rest"⟩ 0 =
      (⟨[renderCookie ("csrfToken", "abc")], "rest"⟩, []) :=
  credentials_failure_frame ⟨"sessionToken", ⟨"", none⟩, 2592000, "tok123"⟩ id
    none ⟨[renderCookie ("csrfToken", "abc")], "rest"⟩ 0 rfl

/-- C10: with no explicit `session.strategy`, the resolved strategy is
`database` when an adapter is configured and `jwt` otherwise (so it is
`database` exactly when an adapter is present), and the credentials
cookie-rewrite path is entered only for POST requests to the credentials
callback route under the `database` strategy. -/
theorem resolveAuthConfig_strategy_dispatch (opts : Option AuthUserConfig)
    (hns : (opts.bind (fun o => o.session)).bind (fun s => s.strategy) = none) :
    ((resolveSessionConfig opts).strategy =
      if (opts.map (fun o => o.adapter)).getD false then "database" else "jwt") ∧
    ((resolveSessionConfig opts).strategy = "database" ↔
      (opts.map (fun o => o.adapter)).getD false = true) ∧
    (∀ req : WebRequest,
      entersCredentialsRewrite req (resolveSessionConfig opts).strategy = true →
        req.method = "POST" ∧ (resolveSessionConfig opts).strategy = "database" ∧
          isCredentialsCallback req = true) := by
  have hstrat : (resolveSessionConfig opts).strategy =
      ((opts.bind (fun o => o.session)).bind (fun s => s.strategy)).getD
        (if (opts.map (fun o => o.adapter)).getD false then "database" else "jwt") := rfl
  refine ⟨?_, ?_, ?_⟩
  · rw [hstrat, hns, Option.getD_none]
  · rw [hstrat, hns, Option.getD_none]
    by_cases hb : (opts.map (fun o => o.adapter)).getD false = true
    · simp [hb]
    · simp [hb]
  · intro req h
    unfold entersCredentialsRewrite at h
    simp only [Bool.and_eq_true, beq_iff_eq] at h
    exact ⟨h.1.1, h.1.2, h.2⟩

theorem resolveAuthConfig_strategy_dispatch_witness :
    ((resolveSessionConfig (some ⟨true, none⟩)).strategy =
      if ((some (⟨true, none⟩ : AuthUserConfig)).map (fun o => o.adapter)).getD false
        then "database" else "jwt") ∧
    ((resolveSessionConfig (some ⟨true, none⟩)).strategy = "database" ↔
      ((some (⟨true, none⟩ : AuthUserConfig)).map (fun o => o.adapter)).getD false =
        true) ∧
    (∀ req : WebRequest,
      entersCredentialsRewrite req
          (resolveSessionConfig (some ⟨true, none⟩)).strategy = true →
        req.method = "POST" ∧
          (resolveSessionConfig (some ⟨true, none⟩)).strategy = "database" ∧
          isCredentialsCallback req = true) :=
  resolveAuthConfig_strategy_dispatch (some ⟨true, none⟩) rfl

end NuxtAuthJS
